import Mathlib

/-!
Verification of the PepperWizard closed-loop visual tracking core.

This file gives a shallow embedding, over exact rational arithmetic, of the
components of the tracking subsystem referenced by the specification:

* `TrapezoidalScheduler` (src/pepper_wizard/core/control/base.py)
* `ExponentialSmoother`, `AlphaBetaEstimator` (same file)
* `NativeController` (src/pepper_wizard/core/control/native.py)
* `PIDController` (src/pepper_wizard/core/control/pid.py)
* `KalmanFilter` (src/pepper_wizard/state_estimator.py)
* `HeadTracker.update` (src/pepper_wizard/core/tracking/head_tracker.py)
* `StateBuffer` (src/pepper_wizard/state_buffer.py)
* `PerceptionInterpreter` (src/pepper_wizard/perception/interpreter.py)
* `VisionReceiver` payload decoding (src/pepper_wizard/perception/vision_receiver.py)

Python floats are modelled as rationals; `None` as `Option.none`; division is
total (`x / 0 = 0`), which is only exercised where the source guards the
denominator.  Definitions follow the source line by line; theorems settle the
specification claims against them.
-/

namespace PepperWizard

/-- State of `TrapezoidalScheduler` (core/control/base.py).  `max_v`, `max_a`
and `kp` are the constructor parameters; `curr_v` is initialised to `0` and
`last_cmd` to `None`. -/
structure TrapezoidalScheduler where
  max_v : ℚ
  max_a : ℚ
  kp : ℚ
  curr_v : ℚ
  last_cmd : Option ℚ
deriving DecidableEq

/-- `TrapezoidalScheduler.update` (core/control/base.py lines 70-92): returns
the updated scheduler together with the commanded position. -/
def TrapezoidalScheduler.update (s : TrapezoidalScheduler)
    (target_pos current_pos dt feed_forward_v : ℚ) : TrapezoidalScheduler × ℚ :=
  match s.last_cmd with
  | none => ({ s with last_cmd := some current_pos, curr_v := 0 }, current_pos)
  | some lc =>
    let dist := target_pos - lc
    let des_vel0 := dist * s.kp + feed_forward_v
    let des_vel := max (-s.max_v) (min s.max_v des_vel0)
    let max_dv := s.max_a * dt
    let dv0 := des_vel - s.curr_v
    let dv := max (-max_dv) (min max_dv dv0)
    let v := s.curr_v + dv
    let cmd := lc + v * dt
    ({ s with curr_v := v, last_cmd := some cmd }, cmd)

/-- One call to the scheduler: target position, measured position, tick
duration and feed-forward velocity. -/
structure SchedCall where
  target : ℚ
  current : ℚ
  dt : ℚ
  ff : ℚ
deriving DecidableEq

/-- Runs the scheduler over a list of calls, recording after each call the
scheduler state, the commanded position, and the dt used by that call. -/
def schedTrace (s : TrapezoidalScheduler) : List SchedCall → List (TrapezoidalScheduler × ℚ × ℚ)
  | [] => []
  | c :: cs =>
    let r := s.update c.target c.current c.dt c.ff
    (r.1, r.2, c.dt) :: schedTrace r.1 cs

/-- Invariant relating two consecutive scheduler trace entries `p` and `q`
(each a state, the commanded position, and the dt of the call that produced
it): the new velocity is within `±max_v`, the velocity step is within
`max_a * dt`, and the position step is within `max_v * dt`. -/
def schedStepOK (p q : TrapezoidalScheduler × ℚ × ℚ) : Prop :=
  |q.1.curr_v| ≤ q.1.max_v ∧
  |q.1.curr_v - p.1.curr_v| ≤ q.1.max_a * q.2.2 ∧
  |q.2.1 - p.2.1| ≤ q.1.max_v * q.2.2

instance (p q : TrapezoidalScheduler × ℚ × ℚ) : Decidable (schedStepOK p q) := by
  unfold schedStepOK; infer_instance

/-- `ExponentialSmoother` (core/control/base.py lines 5-20): simple alpha
filter; the first value seeds directly. -/
structure ExponentialSmoother where
  smoothing : ℚ
  value : Option ℚ
deriving DecidableEq

/-- `ExponentialSmoother.update`. -/
def ExponentialSmoother.update (s : ExponentialSmoother) (raw_value : ℚ) :
    ExponentialSmoother × ℚ :=
  match s.value with
  | none => ({ s with value := some raw_value }, raw_value)
  | some v =>
    let alpha := max 0 (min 1 (1 - s.smoothing))
    let nv := alpha * raw_value + (1 - alpha) * v
    ({ s with value := some nv }, nv)

/-- `AlphaBetaEstimator` (core/control/base.py lines 22-55): velocity from
position changes. -/
structure AlphaBetaEstimator where
  beta : ℚ
  max_v : ℚ
  velocity : ℚ
  last_pos : Option ℚ
  last_time : Option ℚ
deriving DecidableEq

/-- `AlphaBetaEstimator.update` with an explicit current time (the source
defaults the timestamp argument to the wall clock). -/
def AlphaBetaEstimator.update (e : AlphaBetaEstimator) (pos now : ℚ) :
    AlphaBetaEstimator × ℚ :=
  let vel :=
    match e.last_pos, e.last_time with
    | some lp, some lt =>
      let dt_v := now - lt
      if dt_v > 1/1000 then
        let inst_v := (pos - lp) / dt_v
        let inst_v := max (-e.max_v) (min e.max_v inst_v)
        e.beta * inst_v + (1 - e.beta) * e.velocity
      else e.velocity
    | _, _ => e.velocity
  ({ e with velocity := vel, last_pos := some pos, last_time := some now }, vel)

/-- Per-update configuration reads of `NativeController.update`
(core/control/native.py lines 50-56). -/
structure NativeCfg where
  fov_x : ℚ
  fov_y : ℚ
  deadzone_x : ℚ
  deadzone_y : ℚ
  vel_decay : ℚ
  fraction_max_speed : ℚ
deriving DecidableEq

/-- Mutable state of `NativeController` (core/control/native.py): per-axis
smoothers, estimators and trapezoidal schedulers. -/
structure NativeController where
  smoother_yaw : ExponentialSmoother
  smoother_pitch : ExponentialSmoother
  estimator_yaw : AlphaBetaEstimator
  estimator_pitch : AlphaBetaEstimator
  scheduler_yaw : TrapezoidalScheduler
  scheduler_pitch : TrapezoidalScheduler
deriving DecidableEq

/-- Section "1. Target Processing" of `NativeController.update`
(core/control/native.py lines 63-97): deadzone, global target reconstruction,
smoothing and velocity estimation when all inputs are present; ghost pursuit
otherwise. -/
def NativeController.processTarget (nc : NativeController) (cfg : NativeCfg)
    (error_x error_y : Option ℚ) (current_yaw current_pitch : Option ℚ)
    (dt : ℚ) (current_time : ℚ) : NativeController :=
  match error_x, error_y, current_yaw, current_pitch with
  | some ex, some ey, some cy, some cp =>
    -- deadzone (strict comparison in the source)
    let ex := if |ex| < cfg.deadzone_x then 0 else ex
    let ey := if |ey| < cfg.deadzone_y then 0 else ey
    let raw_target_yaw := cy + ex * cfg.fov_x * (1/2)
    let raw_target_pitch := cp + ey * cfg.fov_y * (1/2)
    let sy := (nc.smoother_yaw.update raw_target_yaw).1
    let sp := (nc.smoother_pitch.update raw_target_pitch).1
    -- velocity estimation uses arrival time; the pitch estimator update is
    -- commented out in the source
    let ey2 := (nc.estimator_yaw.update raw_target_yaw current_time).1
    { nc with smoother_yaw := sy, smoother_pitch := sp, estimator_yaw := ey2 }
  | _, _, _, _ =>
    -- Ghost pursuit / propagation: the source advances only the yaw
    -- smoother (the pitch lines are commented out); the guard on
    -- `scheduler_yaw.curr_v is not None` is vacuous since `curr_v` is
    -- always a number.
    let p_dt := min dt (1/20)
    let v_yaw := nc.scheduler_yaw.curr_v * cfg.vel_decay
    match nc.smoother_yaw.value with
    | some sv =>
      { nc with smoother_yaw := { nc.smoother_yaw with value := some (sv + v_yaw * p_dt) } }
    | none => nc

/-- Section "2. Motion Scheduling" of `NativeController.update`
(core/control/native.py lines 99-130). -/
def NativeController.schedule (nc1 : NativeController) (cfg : NativeCfg)
    (current_yaw current_pitch : Option ℚ) (dt : ℚ) :
    NativeController × (Option ℚ × Option ℚ × ℚ) :=
  match nc1.smoother_yaw.value, current_yaw with
  | some target_pos_yaw, some cy =>
    let inner_dt := max (1/1000) (min dt (1/20))
    -- FEED-FORWARD DISABLED in the source: the estimator velocity is not
    -- passed to the schedulers.
    let feed_yaw : ℚ := 0
    let feed_pitch : ℚ := 0
    let ry := nc1.scheduler_yaw.update target_pos_yaw cy inner_dt feed_yaw
    match nc1.smoother_pitch.value, current_pitch with
    | some target_pos_pitch, some cp =>
      let rp := nc1.scheduler_pitch.update target_pos_pitch cp inner_dt feed_pitch
      ({ nc1 with scheduler_yaw := ry.1, scheduler_pitch := rp.1 },
       (some ry.2, some rp.2, cfg.fraction_max_speed))
    | _, _ =>
      -- unreachable in the states the orchestrator produces (yaw and pitch
      -- targets are always seeded together); the source would raise here
      ({ nc1 with scheduler_yaw := ry.1 }, (some ry.2, none, cfg.fraction_max_speed))
  | _, _ => (nc1, (none, none, cfg.fraction_max_speed))

/-- `NativeController.update` (core/control/native.py lines 49-130).  Returns
the new controller state and `(final_yaw, final_pitch, speed)`; the command
components are `none` when the source returns `None` for them. -/
def NativeController.update (nc : NativeController) (cfg : NativeCfg)
    (error_x error_y : Option ℚ) (current_yaw current_pitch : Option ℚ)
    (dt : ℚ) (current_time : ℚ) : NativeController × (Option ℚ × Option ℚ × ℚ) :=
  NativeController.schedule
    (nc.processTarget cfg error_x error_y current_yaw current_pitch dt current_time)
    cfg current_yaw current_pitch dt

/-- `PIDController` (core/control/pid.py). -/
structure PIDController where
  kp : ℚ
  kd : ℚ
  ki : ℚ
  deadzone : ℚ
  max_output : Option ℚ
  max_acceleration : Option ℚ
  output_smoothing : ℚ
  prev_error : ℚ
  integral : ℚ
  last_output : ℚ
deriving DecidableEq

/-- `PIDController.update` (core/control/pid.py lines 26-79). -/
def PIDController.update (p : PIDController) (error dt : ℚ) : PIDController × ℚ :=
  if dt ≤ 1/10000 then (p, p.last_output)
  else
    -- deadzone check (the source sets both `error` and `integral` to 0
    -- inside the same strict-comparison branch)
    let err := if |error| < p.deadzone then 0 else error
    let integral0 := if |error| < p.deadzone then 0 else p.integral
    let p_term := p.kp * err
    let d_error := (err - p.prev_error) / dt
    let d_term := p.kd * d_error
    let integral1 := integral0 + err * dt
    let integral2 := if integral1 > 1/2 then 1/2 else integral1
    let integral3 := if integral2 < -(1/2) then -(1/2) else integral2
    let i_term := p.ki * integral3
    let output0 := p_term + d_term + i_term
    let output1 :=
      match p.max_output with
      | some mo => max (min output0 mo) (-mo)
      | none => output0
    let output2 :=
      match p.max_acceleration with
      | some macc =>
        let max_change := macc * dt
        let change := max (min (output1 - p.last_output) max_change) (-max_change)
        p.last_output + change
      | none => output1
    let output :=
      if p.output_smoothing > 0 then
        (1 - p.output_smoothing) * output2 + p.output_smoothing * p.last_output
      else output2
    ({ p with prev_error := err, integral := integral3, last_output := output }, output)

/-- The dt safety clamp at the top of `HeadTracker.update`
(core/tracking/head_tracker.py lines 96-101): a dt above 0.05 s is replaced
by the nominal 0.01 s, a dt below 0.001 s by 0.001 s. -/
def clampDt (dt : ℚ) : ℚ :=
  let dt1 := if dt > 1/20 then 1/100 else dt
  if dt1 < 1/1000 then 1/1000 else dt1

/-- Matrix product of function matrices (numpy `@`). -/
def mmul {m n p : ℕ} (A : Fin m → Fin n → ℚ) (B : Fin n → Fin p → ℚ) :
    Fin m → Fin p → ℚ :=
  fun i j => ∑ k, A i k * B k j

/-- Matrix–vector product. -/
def mvmul {m n : ℕ} (A : Fin m → Fin n → ℚ) (x : Fin n → ℚ) : Fin m → ℚ :=
  fun i => ∑ k, A i k * x k

/-- Entrywise matrix sum. -/
def madd {m n : ℕ} (A B : Fin m → Fin n → ℚ) : Fin m → Fin n → ℚ :=
  fun i j => A i j + B i j

/-- Matrix transpose. -/
def trans {m n : ℕ} (A : Fin m → Fin n → ℚ) : Fin n → Fin m → ℚ :=
  fun i j => A j i

/-- `np.eye(n) * c`. -/
def ideye (n : ℕ) (c : ℚ) : Fin n → Fin n → ℚ :=
  fun i j => if i = j then c else 0

/-- Constant-velocity `KalmanFilter` (state_estimator.py, identical class
imported as core/control/filters in the tracker): state `[x, y, dx, dy]`,
measurement `[x, y]`. -/
structure KalmanFilter where
  x : Fin 4 → ℚ
  P : Fin 4 → Fin 4 → ℚ
  Q : Fin 4 → Fin 4 → ℚ
  R : Fin 2 → Fin 2 → ℚ

/-- `KalmanFilter.__init__`: zero state, prior covariance `10*I`, process
noise `q*I`, measurement noise `r*I`. -/
def KalmanFilter.init (process_noise measurement_noise : ℚ) : KalmanFilter :=
  { x := fun _ => 0
    P := ideye 4 10
    Q := ideye 4 process_noise
    R := ideye 2 measurement_noise }

/-- The fixed measurement matrix `H` (picks the position components). -/
def Hmat : Fin 2 → Fin 4 → ℚ := ![![1, 0, 0, 0], ![0, 1, 0, 0]]

/-- The constant-velocity state-transition matrix `F`. -/
def Fmat (dt : ℚ) : Fin 4 → Fin 4 → ℚ :=
  ![![1, 0, dt, 0], ![0, 1, 0, dt], ![0, 0, 1, 0], ![0, 0, 0, 1]]

/-- `KalmanFilter.predict` (state_estimator.py lines 32-51). -/
def KalmanFilter.predict (kf : KalmanFilter) (dt : ℚ) : KalmanFilter × (ℚ × ℚ) :=
  let F := Fmat dt
  let x2 := mvmul F kf.x
  let P2 := madd (mmul (mmul F kf.P) (trans F)) kf.Q
  ({ kf with x := x2, P := P2 }, (x2 0, x2 1))

/-- 2×2 matrix inverse: what `np.linalg.inv` computes for the 2×2 innovation
covariance.  Division is total in ℚ; a singular `S` would raise in the source
and never arises from the tracker (its `R` has a positive diagonal). -/
def inv2 (S : Fin 2 → Fin 2 → ℚ) : Fin 2 → Fin 2 → ℚ :=
  let det := S 0 0 * S 1 1 - S 0 1 * S 1 0
  ![![S 1 1 / det, -(S 0 1) / det], ![-(S 1 0) / det, S 0 0 / det]]

/-- `KalmanFilter.update` (state_estimator.py lines 53-77): residual
`y = z - H*x`, innovation `S = H*P*Ht + R`, gain `K = P*Ht*inv(S)`,
`x += K*y`, `P = (I - K*H)*P`. -/
def KalmanFilter.update (kf : KalmanFilter) (z : Fin 2 → ℚ) : KalmanFilter × (ℚ × ℚ) :=
  let y := fun i => z i - mvmul Hmat kf.x i
  let S := madd (mmul (mmul Hmat kf.P) (trans Hmat)) kf.R
  let K := mmul (mmul kf.P (trans Hmat)) (inv2 S)
  let x2 := fun i => kf.x i + mvmul K y i
  let P2 := mmul (fun i j => ideye 4 1 i j - mmul K Hmat i j) kf.P
  ({ kf with x := x2, P := P2 }, (x2 0, x2 1))

/-- `BBox` (core/models.py). -/
structure BBox where
  xmin : ℚ
  ymin : ℚ
  xmax : ℚ
  ymax : ℚ
deriving DecidableEq

/-- `BBox.center`. -/
def BBox.center (b : BBox) : ℚ × ℚ :=
  ((b.xmin + b.xmax) / 2, (b.ymin + b.ymax) / 2)

/-- `Detection` (core/models.py). -/
structure Detection where
  label : String
  confidence : ℚ
  bbox : BBox
  timestamp : ℚ
  source_angles : Option (ℚ × ℚ)
deriving DecidableEq

/-- Owned state of the native-mode `HeadTracker`: Kalman filter plus native
controller. -/
structure HeadTrackerState where
  kf : KalmanFilter
  nc : NativeController

/-- Packaging of the native controller's return into the tracker's structured
position command (head_tracker.py lines 151-159): a command is emitted iff
`target_yaw` is not `None`. -/
def cmdOfNative : Option ℚ × Option ℚ × ℚ → Option (ℚ × Option ℚ × ℚ)
  | (some ty, p, s) => some (ty, p, s)
  | (none, _, _) => none

/-- The native-mode path of `HeadTracker.update`
(core/tracking/head_tracker.py lines 96-159), with the wall clock passed in
(`dt_raw` is `now - last_update_time`; `now` is also the arrival time given
to the controller).  Returns the new state and the position command
`(yaw, pitch, speed)` or `none`. -/
def headTrackerNativeUpdate (width height latency_comp : ℚ) (cfg : NativeCfg)
    (st : HeadTrackerState) (detection : Option Detection)
    (current_state : Option (ℚ × ℚ)) (dt_raw now : ℚ) :
    HeadTrackerState × Option (ℚ × Option ℚ × ℚ) :=
  let dt := clampDt dt_raw
  -- 1. State estimation (predict)
  let pr := st.kf.predict (dt + latency_comp)
  -- 2. Update filter (correct): the corrected state is returned as
  -- (target_x, target_y) but the native branch below deliberately bypasses
  -- it ("HYBRID - RAW MODE" in the source) and uses the raw bbox centre.
  let upd :=
    match detection with
    | some det => KalmanFilter.update pr.1 ![det.bbox.center.1, det.bbox.center.2]
    | none => (pr.1, pr.2)
  let meas :=
    match detection with
    | some det => det.source_angles
    | none => none
  let curr_yaw :=
    match meas, current_state with
    | some ma, _ => some ma.1
    | none, some cs => some cs.1
    | none, none => none
  let curr_pitch :=
    match meas, current_state with
    | some ma, _ => some ma.2
    | none, some cs => some cs.2
    | none, none => none
  let calc_err_x :=
    match detection with
    | some det => some (-(det.bbox.center.1 - width / 2) / (width / 2))
    | none => none
  let calc_err_y :=
    match detection with
    | some det => some ((det.bbox.center.2 - height / 2) / (height / 2))
    | none => none
  let r := st.nc.update cfg calc_err_x calc_err_y curr_yaw curr_pitch dt now
  ({ kf := upd.1, nc := r.1 }, cmdOfNative r.2)

/-- Modelled from the spec (C1 refinement variant): identical to
`headTrackerNativeUpdate` except that, as the specification's words require,
the normalised errors driving the controller are computed from the corrected
Kalman state rather than from the raw bounding-box centre.  Exists only to be
compared with the embedding of the source. -/
def headTrackerNativeUpdateSpecC1 (width height latency_comp : ℚ) (cfg : NativeCfg)
    (st : HeadTrackerState) (detection : Option Detection)
    (current_state : Option (ℚ × ℚ)) (dt_raw now : ℚ) :
    HeadTrackerState × Option (ℚ × Option ℚ × ℚ) :=
  let dt := clampDt dt_raw
  let pr := st.kf.predict (dt + latency_comp)
  let upd :=
    match detection with
    | some det => KalmanFilter.update pr.1 ![det.bbox.center.1, det.bbox.center.2]
    | none => (pr.1, pr.2)
  let meas :=
    match detection with
    | some det => det.source_angles
    | none => none
  let curr_yaw :=
    match meas, current_state with
    | some ma, _ => some ma.1
    | none, some cs => some cs.1
    | none, none => none
  let curr_pitch :=
    match meas, current_state with
    | some ma, _ => some ma.2
    | none, some cs => some cs.2
    | none, none => none
  let calc_err_x :=
    match detection with
    | some _ => some (-(upd.2.1 - width / 2) / (width / 2))
    | none => none
  let calc_err_y :=
    match detection with
    | some _ => some ((upd.2.2 - height / 2) / (height / 2))
    | none => none
  let r := st.nc.update cfg calc_err_x calc_err_y curr_yaw curr_pitch dt now
  ({ kf := upd.1, nc := r.1 }, cmdOfNative r.2)

/-- Python's `bisect.bisect_right` loop
(`while lo < hi: mid = (lo+hi)//2; if x < a[mid]: hi = mid else: lo = mid+1`),
with the loop expressed through a fuel argument (the iteration count is
bounded by `hi - lo`, so a fuel of `a.length` always suffices). -/
def bisectRightAux (a : List ℚ) (x : ℚ) : ℕ → ℕ → ℕ → ℕ
  | 0, lo, _ => lo
  | fuel + 1, lo, hi =>
    if lo < hi then
      let mid := (lo + hi) / 2
      if x < a.getD mid 0 then bisectRightAux a x fuel lo mid
      else bisectRightAux a x fuel (mid + 1) hi
    else lo

/-- `bisect.bisect_right(a, x)` over the whole list. -/
def bisectRight (a : List ℚ) (x : ℚ) : ℕ :=
  bisectRightAux a x a.length 0 a.length

/-- `StateBuffer.get_state_at` (state_buffer.py lines 47-85).  The ring is a
list of `(timestamp, yaw, pitch)` triples, oldest first. -/
def get_state_at (buf : List (ℚ × ℚ × ℚ)) (query_time : ℚ) : Option (ℚ × ℚ) :=
  match buf with
  | [] => none
  | b0 :: rest =>
    let bl := b0 :: rest
    let timestamps := bl.map (fun s => s.1)
    let lastS := bl.getLast (List.cons_ne_nil b0 rest)
    -- bounds check, allowing 50 ms slack
    if query_time < b0.1 - 1/20 then none
    else if query_time > lastS.1 + 1/20 then some (lastS.2.1, lastS.2.2)
    else
      let idx := bisectRight timestamps query_time
      if idx = 0 then some (b0.2.1, b0.2.2)
      else if idx = timestamps.length then some (lastS.2.1, lastS.2.2)
      else
        let s0 := bl.getD (idx - 1) b0
        let s1 := bl.getD idx b0
        let alpha := if s1.1 - s0.1 > 0 then (query_time - s0.1) / (s1.1 - s0.1) else 0
        some (s0.2.1 + alpha * (s1.2.1 - s0.2.1), s0.2.2 + alpha * (s1.2.2 - s0.2.2))

/-- One accepted 16-byte sample being stored by `StateBuffer.run`
(state_buffer.py lines 36-39): `collections.deque(maxlen=…).append` appends
unconditionally and evicts the oldest entries beyond capacity; no ordering
check is performed. -/
def sbInsert (maxlen : ℕ) (buf : List (ℚ × ℚ × ℚ)) (s : ℚ × ℚ × ℚ) :
    List (ℚ × ℚ × ℚ) :=
  let b := buf ++ [s]
  if maxlen < b.length then b.drop (b.length - maxlen) else b

/-- A raw detection record from a perception reply. -/
structure RawDet where
  cls : String
  confidence : ℚ
  bbox : ℚ × ℚ × ℚ × ℚ
deriving DecidableEq

/-- A pose landmark in 0…1 normalised coordinates. -/
structure Landmark where
  x : ℚ
  y : ℚ
  visibility : ℚ
deriving DecidableEq

/-- The payload shapes accepted by `PerceptionInterpreter.interpret`: a bare
list of detections, or a dict possibly carrying `pose_landmarks` and/or
`detections`. -/
inductive RawData where
  | list (dets : List RawDet)
  | dict (pose_landmarks : Option (List Landmark)) (detections : Option (List RawDet))
deriving DecidableEq

/-- Python's `str.lower()` for ASCII labels, written over the string's
character list so that it evaluates by kernel reduction. -/
def pyLower (s : String) : String :=
  String.mk (s.data.map Char.toLower)

/-- `target_label.lower() in ["person", "human", "face", "man", "woman"]`
(interpreter.py line 22). -/
def isPersonTarget (target_label : String) : Bool :=
  (["person", "human", "face", "man", "woman"] : List String).contains (pyLower target_label)

/-- The fallback selection loop (interpreter.py lines 47-54): keep detections
whose class equals the target with confidence above 0.25, tracking the strict
maximum confidence (ties keep the earlier detection). -/
def selectBest (dets : List RawDet) (target_label : String) : Option RawDet :=
  (dets.foldl
    (fun acc det =>
      if det.cls = target_label ∧ det.confidence > 1/4 ∧ det.confidence > acc.1 then
        (det.confidence, some det)
      else acc)
    ((0 : ℚ), (none : Option RawDet))).2

/-- `PerceptionInterpreter.interpret` (interpreter.py lines 14-81). -/
def interpret (width height : ℚ) (raw_data : RawData) (target_label : String)
    (timestamp : ℚ) (source_angles : Option (ℚ × ℚ)) : Option Detection :=
  if target_label = "" then none
  else
    -- 1. Mediapipe primacy (person/face): landmark index 0 (the nose)
    let pose_hit : Option Detection :=
      match raw_data with
      | RawData.dict (some (nose :: _)) _ =>
        if isPersonTarget target_label then
          some ⟨target_label, 1,
            ⟨nose.x * width, nose.y * height, nose.x * width, nose.y * height⟩,
            timestamp, source_angles⟩
        else none
      | _ => none
    match pose_hit with
    | some d => some d
    | none =>
      -- 2. YOLO / detection fallback
      let detections_list :=
        match raw_data with
        | RawData.list dets => dets
        | RawData.dict _ (some dets) => dets
        | RawData.dict _ none => []
      match selectBest detections_list target_label with
      | none => none
      | some best_det =>
        let x1 := best_det.bbox.1
        let y1 := best_det.bbox.2.1
        let x2 := best_det.bbox.2.2.1
        let y2 := best_det.bbox.2.2.2
        -- 3. Social bias: shrink a human box to its top 40 %
        if isPersonTarget target_label then
          some ⟨target_label, best_det.confidence,
            ⟨x1, y1, x2, y1 + (2/5) * (y2 - y1)⟩, timestamp, source_angles⟩
        else
          some ⟨target_label, best_det.confidence, ⟨x1, y1, x2, y2⟩,
            timestamp, source_angles⟩

/-- The pixel formats `VisionReceiver.run` can decode
(perception/vision_receiver.py lines 70-83), keyed on payload byte length.
Payload lengths without a decoder leave `img_bgr = None`, which suppresses
the callback (line 84) after a warning is printed. -/
inductive PixFormat where
  | grey320x240
  | yuyv320x240
deriving DecidableEq

/-- The length dispatch of `VisionReceiver.run`. -/
def decodePayload (n : ℕ) : Option PixFormat :=
  if n = 76800 then some PixFormat.grey320x240
  else if n = 153600 then some PixFormat.yuyv320x240
  else none

/-- `True` exactly when a payload of `n` bytes results in a callback
invocation (vision_receiver.py lines 84-86). -/
def visionCallbackFires (n : ℕ) : Bool :=
  (decodePayload n).isSome

/- ------------------------------------------------------------------ -/
/- Theorems -/
/- ------------------------------------------------------------------ -/

/-- Arithmetic core of the scheduler step: clamping the desired velocity to
`±m` and the velocity increment to `±(a*d)` keeps the new velocity inside
`±m` and the increment inside `±(a*d)`. -/
theorem sched_arith_bounds (m a d v des0 : ℚ) (hm : 0 ≤ m) (ha : 0 ≤ a) (hd : 0 ≤ d)
    (hv : |v| ≤ m) :
    |v + max (-(a * d)) (min (a * d) (max (-m) (min m des0) - v))| ≤ m ∧
    |max (-(a * d)) (min (a * d) (max (-m) (min m des0) - v))| ≤ a * d := by
  have hmd : 0 ≤ a * d := mul_nonneg ha hd
  rcases abs_le.mp hv with ⟨hv1, hv2⟩
  have hdes1 : -m ≤ max (-m) (min m des0) := le_max_left _ _
  have hdes2 : max (-m) (min m des0) ≤ m := max_le (by linarith) (min_le_left _ _)
  set des := max (-m) (min m des0) with hdes
  have f1 : -(a * d) ≤ max (-(a * d)) (min (a * d) (des - v)) := le_max_left _ _
  have f2 : max (-(a * d)) (min (a * d) (des - v)) ≤ a * d :=
    max_le (by linarith) (min_le_left _ _)
  have f3 : max (-(a * d)) (min (a * d) (des - v)) ≤ max (-(a * d)) (des - v) :=
    max_le_max le_rfl (min_le_right _ _)
  have f4 : min (a * d) (des - v) ≤ max (-(a * d)) (min (a * d) (des - v)) := le_max_right _ _
  refine ⟨abs_le.mpr ⟨?_, ?_⟩, abs_le.mpr ⟨by linarith, f2⟩⟩
  · have h5 : -m - v ≤ min (a * d) (des - v) := le_min (by linarith) (by linarith)
    linarith [le_trans h5 f4]
  · have h6 : max (-(a * d)) (des - v) ≤ m - v := max_le (by linarith) (by linarith)
    linarith [le_trans f3 h6]

/-- One seeded scheduler step preserves the invariants: the stored command
mirrors the returned one, the limits are unchanged, the velocity stays within
`±max_v`, the velocity step within `max_a * dt`, and the position step within
`max_v * dt`. -/
theorem trapezoidal_step_bounds (s : TrapezoidalScheduler) (t c d f lc : ℚ)
    (hlc : s.last_cmd = some lc) (hv : |s.curr_v| ≤ s.max_v)
    (hmv : 0 ≤ s.max_v) (hma : 0 ≤ s.max_a) (hd : 0 ≤ d) :
    (s.update t c d f).1.last_cmd = some (s.update t c d f).2 ∧
    (s.update t c d f).1.max_v = s.max_v ∧
    (s.update t c d f).1.max_a = s.max_a ∧
    |(s.update t c d f).1.curr_v| ≤ s.max_v ∧
    |(s.update t c d f).1.curr_v - s.curr_v| ≤ s.max_a * d ∧
    |(s.update t c d f).2 - lc| ≤ s.max_v * d := by
  obtain ⟨mv, ma, kp, v, olc⟩ := s
  simp only at hv hmv hma hlc
  subst hlc
  simp only [TrapezoidalScheduler.update]
  obtain ⟨hb1, hb2⟩ := sched_arith_bounds mv ma d v ((t - lc) * kp + f) hmv hma hd hv
  refine ⟨trivial, trivial, trivial, ?_, ?_, ?_⟩
  · exact hb1
  · simpa using hb2
  · have : lc + (v + max (-(ma * d)) (min (ma * d) (max (-mv) (min mv ((t - lc) * kp + f)) - v))) * d - lc
        = (v + max (-(ma * d)) (min (ma * d) (max (-mv) (min mv ((t - lc) * kp + f)) - v))) * d := by
      ring
    rw [this, abs_mul, abs_of_nonneg hd]
    exact mul_le_mul_of_nonneg_right hb1 hd

/-- From any seeded state with in-range velocity, the whole trace of scheduler
calls satisfies the consecutive-step invariants. -/
theorem schedTrace_chain (calls : List SchedCall) (s : TrapezoidalScheduler) (lc d0 : ℚ)
    (hlc : s.last_cmd = some lc) (hv : |s.curr_v| ≤ s.max_v)
    (hmv : 0 ≤ s.max_v) (hma : 0 ≤ s.max_a)
    (hd : ∀ cl ∈ calls, 0 ≤ cl.dt) :
    List.Chain schedStepOK (s, lc, d0) (schedTrace s calls) := by
  induction calls generalizing s lc d0 with
  | nil => exact List.Chain.nil
  | cons cl cs ih =>
    obtain ⟨h1, h2, h3, h4, h5, h6⟩ :=
      trapezoidal_step_bounds s cl.target cl.current cl.dt cl.ff lc hlc hv hmv hma
        (hd cl (by simp))
    simp only [schedTrace]
    refine List.Chain.cons ?_ ?_
    · exact ⟨h2 ▸ h4, by rw [h3]; exact h5, by rw [h2]; exact h6⟩
    · exact ih _ _ cl.dt h1 (h2 ▸ h4) (h2 ▸ hmv) (h3 ▸ hma) (fun x hx => hd x (by simp [hx]))

/-- C2: for every sequence of consecutive calls to a per-axis trapezoidal
scheduler after its first (seeded) call, with any target and measured
positions, the internal velocity stays within `±max_velocity`, consecutive
velocities differ by at most `max_accel * dt_k`, and consecutive commanded
positions differ by at most `max_velocity * dt_k`. -/
theorem trapezoidal_scheduler_invariants (s0 : TrapezoidalScheduler) (first : SchedCall)
    (calls : List SchedCall)
    (hfresh : s0.last_cmd = none) (hmv : 0 ≤ s0.max_v) (hma : 0 ≤ s0.max_a)
    (hd : ∀ cl ∈ calls, 0 ≤ cl.dt) :
    List.Chain schedStepOK
      ((s0.update first.target first.current first.dt first.ff).1,
       (s0.update first.target first.current first.dt first.ff).2, first.dt)
      (schedTrace (s0.update first.target first.current first.dt first.ff).1 calls) := by
  have hu : s0.update first.target first.current first.dt first.ff
      = ({ s0 with last_cmd := some first.current, curr_v := 0 }, first.current) := by
    unfold TrapezoidalScheduler.update
    rw [hfresh]
  rw [hu]
  exact schedTrace_chain calls _ first.current first.dt rfl (by simpa using hmv) hmv hma hd

/-- Witness for C2 at a concrete scheduler and a concrete three-call episode. -/
theorem trapezoidal_scheduler_invariants_witness :
    ((⟨2, 10, 8, 0, none⟩ : TrapezoidalScheduler).last_cmd = none ∧
     (0:ℚ) ≤ (2:ℚ) ∧ (0:ℚ) ≤ (10:ℚ) ∧
     (∀ cl ∈ [(⟨1, 0, 1/100, 0⟩ : SchedCall), ⟨1, 0, 1/100, 0⟩, ⟨0, 0, 1/50, 0⟩], 0 ≤ cl.dt)) ∧
    List.Chain schedStepOK
      (((⟨2, 10, 8, 0, none⟩ : TrapezoidalScheduler).update 1 0 (1/100) 0).1,
       ((⟨2, 10, 8, 0, none⟩ : TrapezoidalScheduler).update 1 0 (1/100) 0).2, 1/100)
      (schedTrace ((⟨2, 10, 8, 0, none⟩ : TrapezoidalScheduler).update 1 0 (1/100) 0).1
        [⟨1, 0, 1/100, 0⟩, ⟨1, 0, 1/100, 0⟩, ⟨0, 0, 1/50, 0⟩]) := by
  refine ⟨⟨rfl, by norm_num, by norm_num, by intro cl hcl; fin_cases hcl <;> norm_num⟩, ?_⟩
  exact trapezoidal_scheduler_invariants ⟨2, 10, 8, 0, none⟩ ⟨1, 0, 1/100, 0⟩
    [⟨1, 0, 1/100, 0⟩, ⟨1, 0, 1/100, 0⟩, ⟨0, 0, 1/50, 0⟩] rfl (by norm_num) (by norm_num)
    (by intro cl hcl; fin_cases hcl <;> norm_num)

/-- C10: the first call to `TrapezoidalScheduler.update` after construction or
reset (no previous command) returns exactly the measured position, stores it
as the last command, and sets the internal velocity to `0`, for any target and
dt. -/
theorem trapezoidal_first_call (s : TrapezoidalScheduler) (t c d f : ℚ)
    (h : s.last_cmd = none) :
    (s.update t c d f).2 = c ∧ (s.update t c d f).1.curr_v = 0 ∧
    (s.update t c d f).1.last_cmd = some c := by
  unfold TrapezoidalScheduler.update
  rw [h]
  exact ⟨rfl, rfl, rfl⟩

/-- Witness for C10 on a concrete fresh scheduler. -/
theorem trapezoidal_first_call_witness :
    ((⟨2, 10, 8, 0, none⟩ : TrapezoidalScheduler).last_cmd = none) ∧
    (((⟨2, 10, 8, 0, none⟩ : TrapezoidalScheduler).update 5 (3/2) (1/100) 0).2 = 3/2 ∧
     ((⟨2, 10, 8, 0, none⟩ : TrapezoidalScheduler).update 5 (3/2) (1/100) 0).1.curr_v = 0 ∧
     ((⟨2, 10, 8, 0, none⟩ : TrapezoidalScheduler).update 5 (3/2) (1/100) 0).1.last_cmd = some (3/2)) :=
  ⟨rfl, trapezoidal_first_call ⟨2, 10, 8, 0, none⟩ 5 (3/2) (1/100) 0 rfl⟩

/-- C7 counterexample: with deadzone `1/50` and an error of exactly `1/50`,
the PID deadzone step does not zero the error (the stored `prev_error` is the
post-deadzone error and remains `1/50`, and the output is `kp * error = 1/50`),
and the native controller's deadzone step likewise lets the error through (the
smoothed target moves to `1/100` instead of staying at `0`). -/
theorem deadzone_boundary_counterexample :
    (((⟨1, 0, 0, 1/50, none, none, 0, 0, 0, 0⟩ : PIDController).update (1/50) (1/100)).1.prev_error = 1/50 ∧
     ((⟨1, 0, 0, 1/50, none, none, 0, 0, 0, 0⟩ : PIDController).update (1/50) (1/100)).2 = 1/50 ∧
     (1/50 : ℚ) ≠ 0) ∧
    (((⟨⟨0, some 0⟩, ⟨0, some 0⟩, ⟨1/10, 3, 0, none, none⟩, ⟨1/10, 3, 0, none, none⟩,
        ⟨2, 1000, 8, 0, some 0⟩, ⟨2, 1000, 8, 0, some 0⟩⟩ : NativeController).update
        ⟨1, 1, 1/50, 1/50, 95/100, 1/5⟩ (some (1/50)) (some 0) (some 0) (some 0) (1/100) 0).1.smoother_yaw.value
      = some (1/100) ∧
     (some (1/100) : Option ℚ) ≠ some 0) := by
  have habs : |(1/50 : ℚ)| = 1/50 := abs_of_nonneg (by norm_num)
  refine ⟨⟨?_, ?_, by norm_num⟩, ?_, by simp⟩
  · norm_num [PIDController.update, habs]
  · norm_num [PIDController.update, habs]
  · norm_num [NativeController.update, NativeController.processTarget, NativeController.schedule,
      ExponentialSmoother.update, AlphaBetaEstimator.update, TrapezoidalScheduler.update, habs]

/-- C7 (amended): the deadzone comparison is strict in both controllers: an
error with `|err|` exactly at the threshold is NOT zeroed — both controllers
behave exactly as they would with a zero deadzone.  (Errors strictly below the
threshold are zeroed.) -/
theorem deadzone_boundary_amended (p : PIDController) (error dt : ℚ)
    (hp : |error| = p.deadzone)
    (nc : NativeController) (cfg : NativeCfg) (ex ey : ℚ) (cy cp : Option ℚ) (dt2 ct : ℚ)
    (hx : |ex| = cfg.deadzone_x) (hy : |ey| = cfg.deadzone_y) :
    ((p.update error dt).2 = (PIDController.update { p with deadzone := 0 } error dt).2 ∧
     (p.update error dt).1.prev_error
        = (PIDController.update { p with deadzone := 0 } error dt).1.prev_error ∧
     (p.update error dt).1.integral
        = (PIDController.update { p with deadzone := 0 } error dt).1.integral ∧
     (p.update error dt).1.last_output
        = (PIDController.update { p with deadzone := 0 } error dt).1.last_output) ∧
    nc.update cfg (some ex) (some ey) cy cp dt2 ct
      = nc.update { cfg with deadzone_x := 0, deadzone_y := 0 } (some ex) (some ey) cy cp dt2 ct := by
  have hp1 : ¬ (|error| < p.deadzone) := by rw [hp]; exact lt_irrefl _
  have hp0 : ¬ (|error| < (0:ℚ)) := not_lt.mpr (abs_nonneg _)
  have hx1 : ¬ (|ex| < cfg.deadzone_x) := by rw [hx]; exact lt_irrefl _
  have hx0 : ¬ (|ex| < (0:ℚ)) := not_lt.mpr (abs_nonneg _)
  have hy1 : ¬ (|ey| < cfg.deadzone_y) := by rw [hy]; exact lt_irrefl _
  have hy0 : ¬ (|ey| < (0:ℚ)) := not_lt.mpr (abs_nonneg _)
  constructor
  · by_cases hdt : dt ≤ 1/10000
    · have hdt2 : dt ≤ (10000:ℚ)⁻¹ := by rw [← one_div]; exact hdt
      simp [PIDController.update, hdt, hdt2]
    · have hdt2 : ¬ dt ≤ (10000:ℚ)⁻¹ := by rw [← one_div]; exact hdt
      simp [PIDController.update, hdt, hdt2, hp1, hp0]
  · cases cy with
    | none =>
      simp [NativeController.update, NativeController.processTarget, NativeController.schedule,
        hx1, hx0, hy1, hy0]
    | some yv =>
      cases cp with
      | none =>
        simp [NativeController.update, NativeController.processTarget, NativeController.schedule,
          hx1, hx0, hy1, hy0]
      | some pv =>
        simp [NativeController.update, NativeController.processTarget, NativeController.schedule,
          hx1, hx0, hy1, hy0]

/-- Witness for the amended C7 at concrete controllers and errors. -/
theorem deadzone_boundary_amended_witness :
    ((|(1/50 : ℚ)| = (⟨1, 0, 0, 1/50, none, none, 0, 0, 0, 0⟩ : PIDController).deadzone) ∧
     (|(1/50 : ℚ)| = (⟨1, 1, 1/50, 1/50, 95/100, 1/5⟩ : NativeCfg).deadzone_x) ∧
     (|(1/50 : ℚ)| = (⟨1, 1, 1/50, 1/50, 95/100, 1/5⟩ : NativeCfg).deadzone_y)) ∧
    ((((⟨1, 0, 0, 1/50, none, none, 0, 0, 0, 0⟩ : PIDController).update (1/50) (1/100)).2
        = (PIDController.update { (⟨1, 0, 0, 1/50, none, none, 0, 0, 0, 0⟩ : PIDController) with deadzone := 0 } (1/50) (1/100)).2 ∧
      (((⟨1, 0, 0, 1/50, none, none, 0, 0, 0, 0⟩ : PIDController).update (1/50) (1/100)).1.prev_error
        = (PIDController.update { (⟨1, 0, 0, 1/50, none, none, 0, 0, 0, 0⟩ : PIDController) with deadzone := 0 } (1/50) (1/100)).1.prev_error) ∧
      (((⟨1, 0, 0, 1/50, none, none, 0, 0, 0, 0⟩ : PIDController).update (1/50) (1/100)).1.integral
        = (PIDController.update { (⟨1, 0, 0, 1/50, none, none, 0, 0, 0, 0⟩ : PIDController) with deadzone := 0 } (1/50) (1/100)).1.integral) ∧
      (((⟨1, 0, 0, 1/50, none, none, 0, 0, 0, 0⟩ : PIDController).update (1/50) (1/100)).1.last_output
        = (PIDController.update { (⟨1, 0, 0, 1/50, none, none, 0, 0, 0, 0⟩ : PIDController) with deadzone := 0 } (1/50) (1/100)).1.last_output)) ∧
     (⟨⟨0, some 0⟩, ⟨0, some 0⟩, ⟨1/10, 3, 0, none, none⟩, ⟨1/10, 3, 0, none, none⟩,
        ⟨2, 1000, 8, 0, some 0⟩, ⟨2, 1000, 8, 0, some 0⟩⟩ : NativeController).update
        ⟨1, 1, 1/50, 1/50, 95/100, 1/5⟩ (some (1/50)) (some (1/50)) (some 0) (some 0) (1/100) 0
      = (⟨⟨0, some 0⟩, ⟨0, some 0⟩, ⟨1/10, 3, 0, none, none⟩, ⟨1/10, 3, 0, none, none⟩,
        ⟨2, 1000, 8, 0, some 0⟩, ⟨2, 1000, 8, 0, some 0⟩⟩ : NativeController).update
        { (⟨1, 1, 1/50, 1/50, 95/100, 1/5⟩ : NativeCfg) with deadzone_x := 0, deadzone_y := 0 }
        (some (1/50)) (some (1/50)) (some 0) (some 0) (1/100) 0) := by
  refine ⟨⟨by norm_num, by norm_num, by norm_num⟩, ?_⟩
  exact deadzone_boundary_amended ⟨1, 0, 0, 1/50, none, none, 0, 0, 0, 0⟩ (1/50) (1/100)
    (by norm_num) _ ⟨1, 1, 1/50, 1/50, 95/100, 1/5⟩ (1/50) (1/50) (some 0) (some 0) (1/100) 0
    (by norm_num) (by norm_num)

/-- C5 counterexample: a ghost-pursuit tick (no Detection) at a state where
the pitch scheduler carries velocity `1` leaves the pitch smoothed target
unchanged at `0`, although the claim requires it to advance by
`1 * vel_decay * min dt cap = 19/2000`. -/
theorem ghost_pursuit_pitch_counterexample :
    ((⟨⟨0, some 0⟩, ⟨0, some 0⟩, ⟨1/10, 3, 0, none, none⟩, ⟨1/10, 3, 0, none, none⟩,
        ⟨2, 1000, 8, 1, some 0⟩, ⟨2, 1000, 8, 1, some 0⟩⟩ : NativeController).update
        ⟨1, 1, 0, 0, 95/100, 1/5⟩ none none (some 0) (some 0) (1/100) 0).1.smoother_pitch.value
      = some 0 ∧
    (0 : ℚ) ≠ 0 + 1 * (95/100) * min (1/100) (1/20) := by
  constructor
  · norm_num [NativeController.update, NativeController.processTarget, NativeController.schedule,
      TrapezoidalScheduler.update]
  · norm_num

/-- C5 (amended): on a Detection-absent position-mode tick only the yaw
smoothed target is advanced — by the yaw scheduler's current velocity decayed
by `vel_decay` times the capped propagation dt — while the pitch smoother is
left unchanged; and on every tick the alpha-beta estimators' state has no
influence on the emitted command (the feed-forward into the schedulers is
zero). -/
theorem ghost_pursuit_yaw_only (nc : NativeController) (cfg : NativeCfg)
    (cy cp : Option ℚ) (dt ct sv : ℚ)
    (hsv : nc.smoother_yaw.value = some sv) :
    ((nc.update cfg none none cy cp dt ct).1.smoother_yaw.value
        = some (sv + nc.scheduler_yaw.curr_v * cfg.vel_decay * min dt (1/20)) ∧
     (nc.update cfg none none cy cp dt ct).1.smoother_pitch = nc.smoother_pitch) ∧
    (∀ (e1 e2 f1 f2 : AlphaBetaEstimator) (ex ey : Option ℚ),
      (NativeController.update { nc with estimator_yaw := e1, estimator_pitch := e2 }
          cfg ex ey cy cp dt ct).2
        = (NativeController.update { nc with estimator_yaw := f1, estimator_pitch := f2 }
          cfg ex ey cy cp dt ct).2) := by
  constructor
  · cases cy with
    | none =>
      constructor
      · simp [NativeController.update, NativeController.processTarget, NativeController.schedule, hsv]
      · simp [NativeController.update, NativeController.processTarget, NativeController.schedule, hsv]
    | some yv =>
      rcases hpv : nc.smoother_pitch.value with _ | pv <;> cases cp <;>
        simp [NativeController.update, NativeController.processTarget, NativeController.schedule,
          hsv, hpv]
  · intro e1 e2 f1 f2 ex ey
    rcases ex with _ | exv <;> rcases ey with _ | eyv <;>
      rcases cy with _ | cyv <;> rcases cp with _ | cpv <;>
      rcases hv : nc.smoother_yaw.value with _ | sv2 <;>
      rcases hpv : nc.smoother_pitch.value with _ | pv2 <;>
      simp [NativeController.update, NativeController.processTarget, NativeController.schedule,
        ExponentialSmoother.update, hv, hpv]

/-- Witness for the amended C5 at a concrete controller state. -/
theorem ghost_pursuit_yaw_only_witness :
    ((⟨⟨0, some 0⟩, ⟨0, some 0⟩, ⟨1/10, 3, 0, none, none⟩, ⟨1/10, 3, 0, none, none⟩,
        ⟨2, 1000, 8, 1, some 0⟩, ⟨2, 1000, 8, 1, some 0⟩⟩ : NativeController).smoother_yaw.value
      = some 0) ∧
    ((((⟨⟨0, some 0⟩, ⟨0, some 0⟩, ⟨1/10, 3, 0, none, none⟩, ⟨1/10, 3, 0, none, none⟩,
        ⟨2, 1000, 8, 1, some 0⟩, ⟨2, 1000, 8, 1, some 0⟩⟩ : NativeController).update
        ⟨1, 1, 0, 0, 95/100, 1/5⟩ none none (some 0) (some 0) (1/100) 0).1.smoother_yaw.value
        = some (0 + (⟨⟨0, some 0⟩, ⟨0, some 0⟩, ⟨1/10, 3, 0, none, none⟩, ⟨1/10, 3, 0, none, none⟩,
            ⟨2, 1000, 8, 1, some 0⟩, ⟨2, 1000, 8, 1, some 0⟩⟩ : NativeController).scheduler_yaw.curr_v
            * (95/100) * min (1/100) (1/20)) ∧
      ((⟨⟨0, some 0⟩, ⟨0, some 0⟩, ⟨1/10, 3, 0, none, none⟩, ⟨1/10, 3, 0, none, none⟩,
        ⟨2, 1000, 8, 1, some 0⟩, ⟨2, 1000, 8, 1, some 0⟩⟩ : NativeController).update
        ⟨1, 1, 0, 0, 95/100, 1/5⟩ none none (some 0) (some 0) (1/100) 0).1.smoother_pitch
        = (⟨⟨0, some 0⟩, ⟨0, some 0⟩, ⟨1/10, 3, 0, none, none⟩, ⟨1/10, 3, 0, none, none⟩,
        ⟨2, 1000, 8, 1, some 0⟩, ⟨2, 1000, 8, 1, some 0⟩⟩ : NativeController).smoother_pitch) ∧
     (∀ (e1 e2 f1 f2 : AlphaBetaEstimator) (ex ey : Option ℚ),
      (NativeController.update { (⟨⟨0, some 0⟩, ⟨0, some 0⟩, ⟨1/10, 3, 0, none, none⟩,
          ⟨1/10, 3, 0, none, none⟩, ⟨2, 1000, 8, 1, some 0⟩, ⟨2, 1000, 8, 1, some 0⟩⟩ : NativeController)
          with estimator_yaw := e1, estimator_pitch := e2 }
          ⟨1, 1, 0, 0, 95/100, 1/5⟩ ex ey (some 0) (some 0) (1/100) 0).2
        = (NativeController.update { (⟨⟨0, some 0⟩, ⟨0, some 0⟩, ⟨1/10, 3, 0, none, none⟩,
          ⟨1/10, 3, 0, none, none⟩, ⟨2, 1000, 8, 1, some 0⟩, ⟨2, 1000, 8, 1, some 0⟩⟩ : NativeController)
          with estimator_yaw := f1, estimator_pitch := f2 }
          ⟨1, 1, 0, 0, 95/100, 1/5⟩ ex ey (some 0) (some 0) (1/100) 0).2)) :=
  ⟨rfl, ghost_pursuit_yaw_only _ ⟨1, 1, 0, 0, 95/100, 1/5⟩ (some 0) (some 0) (1/100) 0 0 rfl⟩

/-- C4 counterexample: a dt of 0.1 s — above `safety.max_dt` = 0.05 s — is
replaced by the nominal 0.01 s, not clamped to `max_dt` as the claim states. -/
theorem dt_clamp_counterexample :
    clampDt (1/10) = 1/100 ∧ (1/100 : ℚ) ≠ 1/20 := by
  constructor
  · simp only [clampDt]
    norm_num
  · norm_num

/-- C4 (amended): on every update the elapsed dt is clamped from below to
`min_dt = 0.001` and values exactly at `min_dt` or `max_dt = 0.05` are
accepted unchanged, but any dt above `max_dt` is replaced by the nominal tick
of 0.01 s rather than by `max_dt`. -/
theorem dt_clamp_amended (dt : ℚ) :
    (dt > 1/20 → clampDt dt = 1/100) ∧
    (dt < 1/1000 → clampDt dt = 1/1000) ∧
    (1/1000 ≤ dt → dt ≤ 1/20 → clampDt dt = dt) := by
  simp only [clampDt]
  refine ⟨fun h => ?_, fun h => ?_, fun h1 h2 => ?_⟩
  · rw [if_pos h]
    norm_num
  · have hin : (if dt > 1/20 then (1/100 : ℚ) else dt) = dt :=
      if_neg (not_lt.mpr (by linarith))
    rw [hin, if_pos h]
  · have hin : (if dt > 1/20 then (1/100 : ℚ) else dt) = dt := if_neg (not_lt.mpr h2)
    rw [hin, if_neg (not_lt.mpr h1)]

/-- Witness for the amended C4 at the boundary values and on each side. -/
theorem dt_clamp_amended_witness :
    ((1/10 : ℚ) > 1/20 ∧ clampDt (1/10) = 1/100) ∧
    ((1/2000 : ℚ) < 1/1000 ∧ clampDt (1/2000) = 1/1000) ∧
    ((1/1000 : ℚ) ≤ 1/1000 ∧ (1/1000 : ℚ) ≤ 1/20 ∧ clampDt (1/1000) = 1/1000) ∧
    ((1/1000 : ℚ) ≤ 1/20 ∧ (1/20 : ℚ) ≤ 1/20 ∧ clampDt (1/20) = 1/20) :=
  ⟨⟨by norm_num, (dt_clamp_amended (1/10)).1 (by norm_num)⟩,
   ⟨by norm_num, (dt_clamp_amended (1/2000)).2.1 (by norm_num)⟩,
   ⟨by norm_num, by norm_num, (dt_clamp_amended (1/1000)).2.2 (by norm_num) (by norm_num)⟩,
   ⟨by norm_num, by norm_num, (dt_clamp_amended (1/20)).2.2 (by norm_num) (by norm_num)⟩⟩

/-- C1 (amended): with a Detection present the Kalman filter is indeed
updated by predict-then-correct with measurement `z = bbox.center`, but the
emitted native-mode command is computed from the raw bounding-box centre: it
is entirely unaffected by the Kalman state. -/
theorem native_command_ignores_kalman (w h lc : ℚ) (cfg : NativeCfg)
    (kf1 kf2 : KalmanFilter) (nc : NativeController) (d : Detection)
    (cs : Option (ℚ × ℚ)) (dt now : ℚ) :
    (headTrackerNativeUpdate w h lc cfg ⟨kf1, nc⟩ (some d) cs dt now).2
      = (headTrackerNativeUpdate w h lc cfg ⟨kf2, nc⟩ (some d) cs dt now).2 ∧
    (headTrackerNativeUpdate w h lc cfg ⟨kf1, nc⟩ (some d) cs dt now).1.kf
      = (KalmanFilter.update (kf1.predict (clampDt dt + lc)).1
          ![d.bbox.center.1, d.bbox.center.2]).1 :=
  ⟨rfl, rfl⟩

/-- C1 counterexample: on a concrete native-mode tick with a Detection at
bbox centre (200, 120) in a 320×240 image, head at (0, 0), the tracker
commands yaw `-1/100` — computed from the raw bounding-box error — while the
spec-variant that drives the controller from the corrected Kalman state would
command yaw `1/50` (the fresh filter's large covariance against measurement
noise 150 drags the corrected position far from the measurement).  The native
command is therefore not produced from the Kalman correction. -/
theorem native_uses_raw_error_counterexample :
    (headTrackerNativeUpdate 320 240 0 ⟨1, 4/5, 0, 0, 95/100, 1/5⟩
      ⟨KalmanFilter.init (1/10) 150, ⟨⟨0, some 0⟩, ⟨0, some 0⟩, ⟨1/10, 3, 0, none, none⟩,
        ⟨1/10, 3, 0, none, none⟩, ⟨2, 1000, 8, 0, some 0⟩, ⟨2, 1000, 8, 0, some 0⟩⟩⟩
      (some ⟨"person", 1, ⟨150, 70, 250, 170⟩, 0, none⟩) (some (0, 0)) (1/100) 0).2
      = some (-(1/100), some 0, 1/5) ∧
    (headTrackerNativeUpdateSpecC1 320 240 0 ⟨1, 4/5, 0, 0, 95/100, 1/5⟩
      ⟨KalmanFilter.init (1/10) 150, ⟨⟨0, some 0⟩, ⟨0, some 0⟩, ⟨1/10, 3, 0, none, none⟩,
        ⟨1/10, 3, 0, none, none⟩, ⟨2, 1000, 8, 0, some 0⟩, ⟨2, 1000, 8, 0, some 0⟩⟩⟩
      (some ⟨"person", 1, ⟨150, 70, 250, 170⟩, 0, none⟩) (some (0, 0)) (1/100) 0).2
      = some (1/50, some (-(1/50)), 1/5) ∧
    (some (-(1/100), some 0, 1/5) : Option (ℚ × Option ℚ × ℚ))
      ≠ some (1/50, some (-(1/50)), 1/5) := by
  have hnl : ∀ q : ℚ, ¬ (|q| < 0) := fun q => not_lt.mpr (abs_nonneg q)
  refine ⟨?_, ?_, by norm_num⟩
  · norm_num [headTrackerNativeUpdate, clampDt, BBox.center, cmdOfNative,
      NativeController.update, NativeController.processTarget, NativeController.schedule,
      ExponentialSmoother.update, AlphaBetaEstimator.update, TrapezoidalScheduler.update,
      hnl, min_def, max_def]
  · norm_num [headTrackerNativeUpdateSpecC1, clampDt, BBox.center, cmdOfNative,
      KalmanFilter.init, KalmanFilter.predict, KalmanFilter.update,
      mmul, mvmul, madd, trans, ideye, inv2, Hmat, Fmat,
      Fin.sum_univ_four, Fin.sum_univ_two,
      Matrix.cons_val_zero, Matrix.cons_val_one, Matrix.head_cons,
      Matrix.cons_val_two, Matrix.cons_val_three, Matrix.tail_cons, Matrix.head_fin_const,
      NativeController.update, NativeController.processTarget, NativeController.schedule,
      ExponentialSmoother.update, AlphaBetaEstimator.update, TrapezoidalScheduler.update,
      hnl, min_def, max_def]

/-- C9 counterexample: the Frame Receiver has no decoder for the 320×240
RGB-888 (230 400 B) and 640×480 RGB-888 (921 600 B) payloads the claim lists
as delivered: both are discarded and no callback fires. -/
theorem vision_decode_counterexample :
    decodePayload 230400 = none ∧ decodePayload 921600 = none ∧
    visionCallbackFires 230400 = false ∧ visionCallbackFires 921600 = false := by
  refine ⟨?_, ?_, ?_, ?_⟩ <;> decide

/-- C9 (amended): the receiver decodes and delivers exactly the two 320×240
encodings distinguished by byte length — 76 800 B greyscale and 153 600 B
YUYV-422 — and every other payload length (including 230 400 B and 921 600 B
RGB-888) is discarded with a warning and produces no callback. -/
theorem vision_decode_amended (n : ℕ) (h1 : n ≠ 76800) (h2 : n ≠ 153600) :
    decodePayload 76800 = some PixFormat.grey320x240 ∧
    decodePayload 153600 = some PixFormat.yuyv320x240 ∧
    visionCallbackFires 76800 = true ∧ visionCallbackFires 153600 = true ∧
    decodePayload n = none ∧ visionCallbackFires n = false := by
  refine ⟨by decide, by decide, by decide, by decide, ?_, ?_⟩ <;>
    simp [decodePayload, visionCallbackFires, h1, h2]

/-- Witness for the amended C9 at payload length 230 400. -/
theorem vision_decode_amended_witness :
    ((230400 : ℕ) ≠ 76800 ∧ (230400 : ℕ) ≠ 153600) ∧
    (decodePayload 76800 = some PixFormat.grey320x240 ∧
     decodePayload 153600 = some PixFormat.yuyv320x240 ∧
     visionCallbackFires 76800 = true ∧ visionCallbackFires 153600 = true ∧
     decodePayload 230400 = none ∧ visionCallbackFires 230400 = false) :=
  ⟨⟨by decide, by decide⟩, vision_decode_amended 230400 (by decide) (by decide)⟩

/-- C8: whenever the box fallback selects a detection and the target is a
human label, the emitted bbox keeps xmin, ymin and xmax and sets
ymax = ymin + 0.4·(ymax − ymin); concretely a person box [100, 100, 200, 300]
(centre y = 200) yields bbox [100, 100, 200, 180] with centre y = 140. -/
theorem social_bias_top40 (dets : List RawDet) (target : String) (ts w h : ℚ)
    (ang : Option (ℚ × ℚ)) (bd : RawDet)
    (hperson : isPersonTarget target = true) (hne : target ≠ "")
    (hsel : selectBest dets target = some bd) :
    (interpret w h (RawData.list dets) target ts ang
      = some ⟨target, bd.confidence,
          ⟨bd.bbox.1, bd.bbox.2.1, bd.bbox.2.2.1,
           bd.bbox.2.1 + (2/5) * (bd.bbox.2.2.2 - bd.bbox.2.1)⟩, ts, ang⟩) ∧
    interpret 320 240 (RawData.list [⟨"person", 9/10, (100, 100, 200, 300)⟩]) "person" 0 none
      = some ⟨"person", 9/10, ⟨100, 100, 200, 180⟩, 0, none⟩ ∧
    (BBox.center ⟨100, 100, 200, 180⟩).2 = 140 ∧
    (BBox.center ⟨100, 100, 200, 300⟩).2 = 200 := by
  refine ⟨?_, ?_, by norm_num [BBox.center], by norm_num [BBox.center]⟩
  · simp [interpret, hne, hsel, hperson]
  · have hps : isPersonTarget "person" = true := by decide
    have hne2 : ("person" : String) ≠ "" := by decide
    have hsel2 : selectBest [⟨"person", 9/10, (100, 100, 200, 300)⟩] "person"
        = some ⟨"person", 9/10, (100, 100, 200, 300)⟩ := by
      norm_num [selectBest]
    norm_num [interpret, hsel2, hps, hne2]

/-- Witness for C8 at the scenario-S6 person box. -/
theorem social_bias_top40_witness :
    (isPersonTarget "person" = true ∧ ("person" : String) ≠ "" ∧
     selectBest [⟨"person", 9/10, (100, 100, 200, 300)⟩] "person"
       = some ⟨"person", 9/10, (100, 100, 200, 300)⟩) ∧
    interpret 320 240 (RawData.list [⟨"person", 9/10, (100, 100, 200, 300)⟩]) "person" 0 none
      = some ⟨"person", 9/10, ⟨100, 100, 200, 180⟩, 0, none⟩ := by
  refine ⟨⟨by decide, by decide, by norm_num [selectBest]⟩, ?_⟩
  have h := (social_bias_top40 [⟨"person", 9/10, (100, 100, 200, 300)⟩] "person" 0 320 240 none
      ⟨"person", 9/10, (100, 100, 200, 300)⟩ (by decide) (by decide)
      (by norm_num [selectBest])).1
  norm_num at h
  exact h

/-- C6 counterexample: a sample whose timestamp (1/2) is older than the
newest buffered timestamp (1) is appended, not dropped, leaving ring
timestamps that are not monotonically non-decreasing. -/
theorem out_of_order_sample_kept :
    sbInsert 200 [(1, 0, 0)] (1/2, 0, 0) = [(1, 0, 0), (1/2, 0, 0)] ∧
    ¬ List.Sorted (· ≤ ·)
        (List.map (fun s => s.1) (sbInsert 200 [(1, 0, 0)] (1/2, 0, 0))) := by
  have h1 : sbInsert 200 [(1, 0, 0)] (1/2, 0, 0) = [(1, 0, 0), (1/2, 0, 0)] := by
    simp [sbInsert]
  refine ⟨h1, ?_⟩
  rw [h1]
  simp only [List.map_cons, List.map_nil, List.sorted_cons, List.mem_cons]
  norm_num

/-- C6 (amended): the receiver appends every well-formed sample without any
ordering check (the new sample is always retained, older entries are only
evicted by capacity), so ring timestamps are monotonically non-decreasing
exactly when the accepted input stream keeps them so: if appending the sample
preserves a non-decreasing timestamp sequence then the stored ring (a suffix
of it) is non-decreasing. -/
theorem sbInsert_append_only (maxlen : ℕ) (buf : List (ℚ × ℚ × ℚ)) (s : ℚ × ℚ × ℚ)
    (hmono : List.Sorted (· ≤ ·) ((buf ++ [s]).map (fun t => t.1))) :
    (∃ pre, pre ++ sbInsert maxlen buf s = buf ++ [s]) ∧
    List.Sorted (· ≤ ·) ((sbInsert maxlen buf s).map (fun t => t.1)) := by
  simp only [sbInsert]
  split_ifs with hlen
  · constructor
    · exact ⟨(buf ++ [s]).take ((buf ++ [s]).length - maxlen), List.take_append_drop _ _⟩
    · rw [List.map_drop]
      exact List.Pairwise.drop hmono
  · exact ⟨⟨[], rfl⟩, hmono⟩

/-- Witness for the amended C6: capacity 2, ring [(0,·),(1,·)], sample (2,·). -/
theorem sbInsert_append_only_witness :
    List.Sorted (· ≤ ·) ((([(0, 0, 0), (1, 0, 0)] : List (ℚ × ℚ × ℚ)) ++ [(2, 0, 0)]).map
      (fun t : ℚ × ℚ × ℚ => t.1)) ∧
    ((∃ pre, pre ++ sbInsert 2 [(0, 0, 0), (1, 0, 0)] (2, 0, 0)
        = [(0, 0, 0), (1, 0, 0)] ++ [(2, 0, 0)]) ∧
     List.Sorted (· ≤ ·) ((sbInsert 2 [(0, 0, 0), (1, 0, 0)] (2, 0, 0)).map
       (fun t : ℚ × ℚ × ℚ => t.1))) :=
  ⟨by norm_num [List.sorted_cons],
   sbInsert_append_only 2 [(0, 0, 0), (1, 0, 0)] (2, 0, 0) (by norm_num [List.sorted_cons])⟩

/-- Correctness of the `bisect_right` loop on a sorted slice: given the
standard loop invariants, the result separates the entries `≤ x` (indices
below it) from the entries `> x` (indices at or above it). -/
theorem bisectRightAux_spec (a : List ℚ) (x : ℚ) (hs : List.Sorted (· ≤ ·) a) :
    ∀ (fuel lo hi : ℕ), hi ≤ a.length → lo ≤ hi → hi - lo ≤ fuel →
      (∀ (j : ℕ) (hj : j < a.length), j < lo → a.get ⟨j, hj⟩ ≤ x) →
      (∀ (j : ℕ) (hj : j < a.length), hi ≤ j → x < a.get ⟨j, hj⟩) →
      lo ≤ bisectRightAux a x fuel lo hi ∧ bisectRightAux a x fuel lo hi ≤ hi ∧
      (∀ (j : ℕ) (hj : j < a.length), j < bisectRightAux a x fuel lo hi → a.get ⟨j, hj⟩ ≤ x) ∧
      (∀ (j : ℕ) (hj : j < a.length), bisectRightAux a x fuel lo hi ≤ j → x < a.get ⟨j, hj⟩) := by
  intro fuel
  induction fuel with
  | zero =>
    intro lo hi hhi hlohi hfuel hlow hhigh
    have heq : lo = hi := by omega
    subst heq
    simp only [bisectRightAux]
    exact ⟨le_refl _, le_refl _, hlow, hhigh⟩
  | succ fuel ih =>
    intro lo hi hhi hlohi hfuel hlow hhigh
    simp only [bisectRightAux]
    by_cases hlh : lo < hi
    · rw [if_pos hlh]
      have hmlt : (lo + hi) / 2 < hi := by omega
      have hmge : lo ≤ (lo + hi) / 2 := by omega
      have hmlen : (lo + hi) / 2 < a.length := lt_of_lt_of_le hmlt hhi
      rw [List.getD_eq_get a 0 hmlen]
      by_cases hx : x < a.get ⟨(lo + hi) / 2, hmlen⟩
      · rw [if_pos hx]
        have hrec := ih lo ((lo + hi) / 2) (le_of_lt hmlen) hmge (by omega) hlow
          (fun j hj hmj => lt_of_lt_of_le hx
            (hs.rel_get_of_le (by exact hmj)))
        exact ⟨hrec.1, le_trans hrec.2.1 (le_of_lt hmlt), hrec.2.2⟩
      · rw [if_neg hx]
        have hax : a.get ⟨(lo + hi) / 2, hmlen⟩ ≤ x := not_lt.mp hx
        have hrec := ih ((lo + hi) / 2 + 1) hi hhi (by omega) (by omega)
          (fun j hj hmj => le_trans (hs.rel_get_of_le (by exact Nat.lt_succ_iff.mp hmj)) hax)
          hhigh
        exact ⟨le_trans (by omega) hrec.1, hrec.2.1, hrec.2.2⟩
    · rw [if_neg hlh]
      have heq : lo = hi := by omega
      subst heq
      exact ⟨le_refl _, le_refl _, hlow, hhigh⟩

/-- `bisect_right` on a sorted list: indices below the result hold entries
`≤ x`; indices at or above it hold entries `> x`. -/
theorem bisectRight_spec (a : List ℚ) (x : ℚ) (hs : List.Sorted (· ≤ ·) a) :
    bisectRight a x ≤ a.length ∧
    (∀ (j : ℕ) (hj : j < a.length), j < bisectRight a x → a.get ⟨j, hj⟩ ≤ x) ∧
    (∀ (j : ℕ) (hj : j < a.length), bisectRight a x ≤ j → x < a.get ⟨j, hj⟩) := by
  obtain ⟨h1, h2, h3, h4⟩ := bisectRightAux_spec a x hs a.length 0 a.length (le_refl _)
    (Nat.zero_le _) (by omega)
    (fun j hj hlt => absurd hlt (Nat.not_lt_zero j))
    (fun j hj hge => absurd hj (not_lt.mpr hge))
  exact ⟨h2, h3, h4⟩

/-- Timestamps of a ring whose mapped timestamp list is sorted are monotone
in the index. -/
theorem ts_get_mono (bl : List (ℚ × ℚ × ℚ))
    (hs : List.Sorted (· ≤ ·) (bl.map (fun s : ℚ × ℚ × ℚ => s.1)))
    (j k : ℕ) (hj : j < bl.length) (hk : k < bl.length) (hjk : j ≤ k) :
    (bl.get ⟨j, hj⟩).1 ≤ (bl.get ⟨k, hk⟩).1 := by
  have hlen : (bl.map (fun s : ℚ × ℚ × ℚ => s.1)).length = bl.length := List.length_map _ _
  have h := hs.rel_get_of_le
    (a := ⟨j, by rw [hlen]; exact hj⟩) (b := ⟨k, by rw [hlen]; exact hk⟩) (by exact hjk)
  simpa [List.get_eq_getElem, List.getElem_map] using h

/-- Entry `j` of the mapped timestamp list is the timestamp of entry `j`. -/
theorem ts_get_map (bl : List (ℚ × ℚ × ℚ)) (j : ℕ) (hj : j < bl.length) :
    (bl.map (fun s : ℚ × ℚ × ℚ => s.1)).get ⟨j, by simpa using hj⟩ = (bl.get ⟨j, hj⟩).1 := by
  simp [List.get_eq_getElem, List.getElem_map]

/-- C3: the State Buffer's interpolated lookup returns `none` on an empty
ring; `none` when the query is more than 50 ms older than the oldest sample;
the latest sample when the query is more than 50 ms past the newest (for a
time-sorted ring); and, for a query bracketed by two consecutive samples of a
time-sorted ring, the linear interpolation of those two samples on both axes.
Concretely, with samples (t=0, yaw=0) and (t=1/10, yaw=1): `at(1/20)` returns
yaw exactly 1/2 (hence within 1e-9), `at(-3/50)` returns `none`, and
`at(7/50)` returns yaw 1. -/
theorem state_buffer_interpolation (b0 : ℚ × ℚ × ℚ) (rest : List (ℚ × ℚ × ℚ)) (q : ℚ) :
    (get_state_at [] q = none) ∧
    (q < b0.1 - 1/20 → get_state_at (b0 :: rest) q = none) ∧
    (List.Sorted (· ≤ ·) ((b0 :: rest).map (fun s : ℚ × ℚ × ℚ => s.1)) →
      q > ((b0 :: rest).getLast (List.cons_ne_nil b0 rest)).1 + 1/20 →
      get_state_at (b0 :: rest) q
        = some (((b0 :: rest).getLast (List.cons_ne_nil b0 rest)).2.1,
                ((b0 :: rest).getLast (List.cons_ne_nil b0 rest)).2.2)) ∧
    (List.Sorted (· ≤ ·) ((b0 :: rest).map (fun s : ℚ × ℚ × ℚ => s.1)) →
      ∀ (i : ℕ) (hi1 : i + 1 < (b0 :: rest).length),
        ((b0 :: rest).get ⟨i, Nat.lt_of_succ_lt hi1⟩).1 ≤ q →
        q < ((b0 :: rest).get ⟨i + 1, hi1⟩).1 →
        get_state_at (b0 :: rest) q
          = some
            (((b0 :: rest).get ⟨i, Nat.lt_of_succ_lt hi1⟩).2.1
               + (q - ((b0 :: rest).get ⟨i, Nat.lt_of_succ_lt hi1⟩).1)
                 / (((b0 :: rest).get ⟨i + 1, hi1⟩).1 - ((b0 :: rest).get ⟨i, Nat.lt_of_succ_lt hi1⟩).1)
                 * (((b0 :: rest).get ⟨i + 1, hi1⟩).2.1 - ((b0 :: rest).get ⟨i, Nat.lt_of_succ_lt hi1⟩).2.1),
             ((b0 :: rest).get ⟨i, Nat.lt_of_succ_lt hi1⟩).2.2
               + (q - ((b0 :: rest).get ⟨i, Nat.lt_of_succ_lt hi1⟩).1)
                 / (((b0 :: rest).get ⟨i + 1, hi1⟩).1 - ((b0 :: rest).get ⟨i, Nat.lt_of_succ_lt hi1⟩).1)
                 * (((b0 :: rest).get ⟨i + 1, hi1⟩).2.2 - ((b0 :: rest).get ⟨i, Nat.lt_of_succ_lt hi1⟩).2.2))) ∧
    (get_state_at [(0, 0, 0), (1/10, 1, 0)] (1/20) = some (1/2, 0) ∧
     get_state_at [(0, 0, 0), (1/10, 1, 0)] (-(3/50)) = none ∧
     get_state_at [(0, 0, 0), (1/10, 1, 0)] (7/50) = some (1, 0)) := by
  refine ⟨rfl, ?_, ?_, ?_,
    by norm_num [get_state_at, bisectRight, bisectRightAux],
    by norm_num [get_state_at, bisectRight, bisectRightAux],
    by norm_num [get_state_at, bisectRight, bisectRightAux]⟩
  · intro h
    simp only [get_state_at]
    rw [if_pos h]
  · intro hs h
    have hlast : (b0 :: rest).getLast (List.cons_ne_nil b0 rest)
        = (b0 :: rest).get ⟨(b0 :: rest).length - 1, by simp⟩ := List.getLast_eq_get _ _
    have hfl : b0.1 ≤ ((b0 :: rest).getLast (List.cons_ne_nil b0 rest)).1 := by
      conv_lhs => rw [show b0 = (b0 :: rest).get ⟨0, by simp⟩ from rfl]
      rw [hlast]
      exact ts_get_mono _ hs 0 _ (by simp) (by simp) (by omega)
    simp only [get_state_at]
    rw [if_neg (not_lt.mpr (by linarith)), if_pos h]
  · intro hs i hi1 hle hlt
    have hlen : ((b0 :: rest).map (fun s : ℚ × ℚ × ℚ => s.1)).length = (b0 :: rest).length :=
      List.length_map _ _
    obtain ⟨hbl, hble, hbgt⟩ := bisectRight_spec ((b0 :: rest).map (fun s : ℚ × ℚ × ℚ => s.1)) q hs
    have hi0 : i < (b0 :: rest).length := Nat.lt_of_succ_lt hi1
    -- the bisection lands exactly after index i
    have hidx : bisectRight ((b0 :: rest).map (fun s : ℚ × ℚ × ℚ => s.1)) q = i + 1 := by
      rcases Nat.lt_or_ge (bisectRight ((b0 :: rest).map (fun s : ℚ × ℚ × ℚ => s.1)) q) (i + 1)
        with hc | hc
      · have hq := hbgt i (by rw [hlen]; exact hi0) (by omega)
        rw [ts_get_map _ i hi0] at hq
        exact absurd hle (not_le.mpr hq)
      · rcases Nat.lt_or_ge (i + 1) (bisectRight ((b0 :: rest).map (fun s : ℚ × ℚ × ℚ => s.1)) q)
          with hc2 | hc2
        · have hq := hble (i + 1) (by rw [hlen]; exact hi1) hc2
          rw [ts_get_map _ (i + 1) hi1] at hq
          exact absurd hq (not_le.mpr hlt)
        · omega
    have hq_lo : ((b0 :: rest).get ⟨0, by simp⟩).1 ≤ q :=
      le_trans (ts_get_mono _ hs 0 i (by simp) hi0 (by omega)) hle
    have hlast : (b0 :: rest).getLast (List.cons_ne_nil b0 rest)
        = (b0 :: rest).get ⟨(b0 :: rest).length - 1, by simp⟩ := List.getLast_eq_get _ _
    have hq_hi : q < ((b0 :: rest).getLast (List.cons_ne_nil b0 rest)).1 := by
      rw [hlast]
      exact lt_of_lt_of_le hlt (ts_get_mono _ hs (i + 1) _ hi1 (by simp) (by omega))
    have hb0 : b0 = (b0 :: rest).get ⟨0, by simp⟩ := rfl
    simp only [get_state_at]
    rw [if_neg (not_lt.mpr (by rw [hb0]; linarith)), if_neg (not_lt.mpr (by linarith)), hidx]
    rw [if_neg (Nat.succ_ne_zero i), if_neg (by rw [hlen]; omega)]
    have hgd0 : (b0 :: rest).getD (i + 1 - 1) b0 = (b0 :: rest).get ⟨i, hi0⟩ := by
      rw [show i + 1 - 1 = i from rfl]
      exact List.getD_eq_get _ _ hi0
    have hgd1 : (b0 :: rest).getD (i + 1) b0 = (b0 :: rest).get ⟨i + 1, hi1⟩ :=
      List.getD_eq_get _ _ hi1
    rw [hgd0, hgd1]
    have hpos : ((b0 :: rest).get ⟨i + 1, hi1⟩).1 - ((b0 :: rest).get ⟨i, hi0⟩).1 > 0 :=
      sub_pos.mpr (lt_of_le_of_lt hle hlt)
    rw [if_pos hpos]

/-- Witness for C3: each guarded case instantiated on the two-sample ring of
scenario S4. -/
theorem state_buffer_interpolation_witness :
    (((-(3/50) : ℚ) < (0 : ℚ) - 1/20) ∧
     List.Sorted (· ≤ ·) (([((0:ℚ), (0:ℚ), (0:ℚ)), ((1/10:ℚ), (1:ℚ), (0:ℚ))]).map
       (fun s : ℚ × ℚ × ℚ => s.1)) ∧
     ((1/5 : ℚ) > 1/10 + 1/20) ∧ ((0:ℚ) ≤ 1/20) ∧ ((1/20:ℚ) < 1/10)) ∧
    (get_state_at [(0, 0, 0), (1/10, 1, 0)] (-(3/50)) = none ∧
     get_state_at [(0, 0, 0), (1/10, 1, 0)] (1/5) = some (1, 0) ∧
     get_state_at [(0, 0, 0), (1/10, 1, 0)] (1/20) = some (1/2, 0)) := by
  constructor
  · exact ⟨by norm_num, by norm_num [List.sorted_cons], by norm_num, by norm_num, by norm_num⟩
  refine ⟨?_, ?_, ?_⟩
  · exact (state_buffer_interpolation (0, 0, 0) [(1/10, 1, 0)] (-(3/50))).2.1 (by norm_num)
  · have h := (state_buffer_interpolation (0, 0, 0) [(1/10, 1, 0)] (1/5)).2.2.1
      (by norm_num [List.sorted_cons]) (by norm_num [List.getLast])
    simpa [List.getLast] using h
  · have h := (state_buffer_interpolation (0, 0, 0) [(1/10, 1, 0)] (1/20)).2.2.2.1
      (by norm_num [List.sorted_cons]) 0 (by norm_num) (by norm_num) (by norm_num)
    norm_num at h
    exact h

end PepperWizard
